import Mathlib

/-
  Verification development for the Ball Pivoting Algorithm engine (bpa.py).

  The engine file bpa.py is embedded faithfully below.  The leaf modules
  point.py, edge.py and face.py are not among the available sources, so the
  operations they provide are modelled from the design document; every such
  definition carries a doc comment starting with `Modelled from the spec:`.

  Points carry exact rational coordinates.  The pivot predicate works with
  squared distances; a candidate sphere centre has the form `O + t*n` where
  `O` is the circumcentre of the triangle, `n` its normal vector and
  `t = sign * sqrt s` with `s = (r^2 - R^2) / |n|^2`.  The comparison
  `A + B * sqrt s >= 0` is decided with rational arithmetic only by
  `geQZero A B s`; a bridge to real geometry is proved for the
  sphere-emptiness theorem.
-/

/-- A 3-D point with exact rational coordinates.  Two points are equal iff
their coordinates are equal (Point value semantics from the spec). -/
structure Pt where
  x : ℚ
  y : ℚ
  z : ℚ
  deriving DecidableEq, Repr, Inhabited

/-- Failure modes of the embedded Python code.  `emptyCandidates` is the
lookup failure of `get_closest_point` on an empty candidate set,
`noPointFound` the failure of `find_third_point`, `indexError` a failed
positional lookup, `noneTypeError` an attribute access on `None`,
`valueError` and `typeError` the corresponding Python exceptions. -/
inductive Err where
  | emptyCandidates
  | noPointFound
  | indexError
  | noneTypeError
  | valueError
  | typeError
  | fuelExhausted
  deriving DecidableEq, Repr

/-
  Rational arithmetic.  The standard `Rat.add`, `Rat.mul`, `Rat.sub`,
  `Rat.div` and `Rat.neg` are irreducible, so terms built from them do not
  evaluate inside `decide`/`rfl` proofs.  The four operations are therefore
  expressed through `Rat.divInt` on numerators and denominators, which does
  reduce; the bridge lemmas `qadd_eq`, `qsub_eq`, `qmul_eq`, `qdiv_eq` and
  `qneg_eq` below identify them with the standard operations, so all
  algebraic reasoning happens over ordinary `ℚ` arithmetic.
-/

def qadd (a b : ℚ) : ℚ := Rat.divInt (a.num * b.den + b.num * a.den) (a.den * b.den)

def qsub (a b : ℚ) : ℚ := Rat.divInt (a.num * b.den - b.num * a.den) (a.den * b.den)

def qmul (a b : ℚ) : ℚ := Rat.divInt (a.num * b.num) (a.den * b.den)

def qdiv (a b : ℚ) : ℚ := Rat.divInt (a.num * b.den) (a.den * b.num)

def qneg (a : ℚ) : ℚ := Rat.divInt (-a.num) a.den

def psub (p q : Pt) : Pt := ⟨qsub p.x q.x, qsub p.y q.y, qsub p.z q.z⟩

def padd (p q : Pt) : Pt := ⟨qadd p.x q.x, qadd p.y q.y, qadd p.z q.z⟩

def smulQ (c : ℚ) (p : Pt) : Pt := ⟨qmul c p.x, qmul c p.y, qmul c p.z⟩

def dotQ (p q : Pt) : ℚ :=
  qadd (qadd (qmul p.x q.x) (qmul p.y q.y)) (qmul p.z q.z)

def crossQ (p q : Pt) : Pt :=
  ⟨qsub (qmul p.y q.z) (qmul p.z q.y), qsub (qmul p.z q.x) (qmul p.x q.z),
   qsub (qmul p.x q.y) (qmul p.y q.x)⟩

/-- Squared Euclidean distance between two points. -/
def distSq (p q : Pt) : ℚ := dotQ (psub p q) (psub p q)

/-- Normal vector of the triangle `(p1, p2, p3)`: the cross product of the
two edge vectors leaving `p1`. -/
def nvecOf (p1 p2 p3 : Pt) : Pt := crossQ (psub p2 p1) (psub p3 p1)

/-- Squared norm of the triangle normal; zero exactly for degenerate
(colinear) triangles, which the pivot predicate skips. -/
def nsqOf (p1 p2 p3 : Pt) : ℚ := dotQ (nvecOf p1 p2 p3) (nvecOf p1 p2 p3)

/-- Circumcentre of the triangle `(p1, p2, p3)`:
`p1 + ((|u|^2 v - |v|^2 u) x n) / (2 |n|^2)` with `u = p2 - p1`,
`v = p3 - p1`, `n = u x v`.  It is equidistant from the three vertices and
lies in their plane (proved below). -/
def circumO (p1 p2 p3 : Pt) : Pt :=
  padd p1 (smulQ (qdiv 1 (qmul 2 (nsqOf p1 p2 p3)))
    (crossQ (psub (smulQ (distSq p2 p1) (psub p3 p1)) (smulQ (distSq p3 p1) (psub p2 p1)))
      (nvecOf p1 p2 p3)))

/-- Squared circumradius of the triangle. -/
def R2of (p1 p2 p3 : Pt) : ℚ := distSq (circumO p1 p2 p3) p1

/-- Squared height of the sphere centre above the triangle plane, divided by
`|n|^2`: the centre of a sphere of radius `r` resting on the triangle is
`circumO + t * n` with `t^2 = sOf`.  A real centre exists iff `sOf >= 0`. -/
def sOf (r : ℚ) (p1 p2 p3 : Pt) : ℚ :=
  qdiv (qsub (qmul r r) (R2of p1 p2 p3)) (nsqOf p1 p2 p3)

/-- Decides `A + B * sqrt s >= 0` (for `s >= 0`) using only rational
arithmetic, by case analysis on the signs of `A` and `B` and squaring. -/
def geQZero (A B s : ℚ) : Bool :=
  if 0 ≤ B then
    (if 0 ≤ A then true else decide (qmul A A ≤ qmul (qmul B B) s))
  else
    (if 0 ≤ A then decide (qmul (qmul B B) s ≤ qmul A A) else false)

/-- `true` iff the cloud point `q` is NOT strictly inside the candidate
sphere with centre `circumO + sign * sqrt sOf * n`: the inequality
`distSq q centre >= r^2` rewritten as `A + B * sqrt s >= 0`. -/
def notInsideB (r : ℚ) (p1 p2 p3 : Pt) (sign : ℚ) (q : Pt) : Bool :=
  geQZero (qsub (qadd (distSq q (circumO p1 p2 p3)) (qmul (sOf r p1 p2 p3) (nsqOf p1 p2 p3)))
      (qmul r r))
    (qmul (qmul (qneg 2) sign) (dotQ (psub q (circumO p1 p2 p3)) (nvecOf p1 p2 p3)))
    (sOf r p1 p2 p3)

/-- `true` iff no cloud point other than `p1`, `p2`, `p3` is strictly inside
the candidate sphere on the side selected by `sign`. -/
def sideEmptyB (cloud : List Pt) (r : ℚ) (p1 p2 p3 : Pt) (sign : ℚ) : Bool :=
  cloud.all fun q => q == p1 || q == p2 || q == p3 || notInsideB r p1 p2 p3 sign q

/-- The exact validity test of the pivot predicate for a candidate third
point `p3`: the triangle is non-degenerate, a real sphere of radius `r`
through the three points exists (`sOf >= 0`), and at least one of the two
resting positions of that sphere contains no other cloud point strictly
inside it. -/
def validSphereB (cloud : List Pt) (r : ℚ) (p1 p2 p3 : Pt) : Bool :=
  (!(nsqOf p1 p2 p3 == 0)) && decide (0 ≤ sOf r p1 p2 p3) &&
    (sideEmptyB cloud r p1 p2 p3 1 || sideEmptyB cloud r p1 p2 p3 (qneg 1))

/-- An allocated Edge object: two endpoints and a connection count.  Object
identity is the position in the engine's heap list. -/
structure EdgeObj where
  a : Pt
  b : Pt
  connections : Nat
  deriving DecidableEq, Repr, Inhabited

/-- A Face: three points (as discovered), the heap ids of its three edges
(`e1` is the edge pivoted from), and the three point-cloud indices computed
with `np.where` for serialization. -/
structure FaceT where
  pt1 : Pt
  pt2 : Pt
  pt3 : Pt
  e1 : Nat
  e2 : Nat
  e3 : Nat
  i1 : Nat
  i2 : Nat
  i3 : Nat
  deriving DecidableEq, Repr, Inhabited

/-- `true` iff the unordered triples `{a1,a2,a3}` and `{b1,b2,b3}` agree. -/
def tripleEqUnordered (a1 a2 a3 b1 b2 b3 : Pt) : Bool :=
  (a1 == b1 && ((a2 == b2 && a3 == b3) || (a2 == b3 && a3 == b2))) ||
  (a1 == b2 && ((a2 == b1 && a3 == b3) || (a2 == b3 && a3 == b1))) ||
  (a1 == b3 && ((a2 == b1 && a3 == b2) || (a2 == b2 && a3 == b1)))

/-- `true` iff some already emitted face uses exactly the three points. -/
def faceUses (faces : List FaceT) (p1 p2 p3 : Pt) : Bool :=
  faces.any fun f => tripleEqUnordered f.pt1 f.pt2 f.pt3 p1 p2 p3

/-- Modelled from the spec: `Edge.find_third_point` of the missing edge.py
(design section 4.2).  Given the edge `(p1, p2)`, it returns a cloud point
`p3` distinct from `p1` and `p2`, not already used by an emitted face on
these two points, such that a sphere of radius `r` through `p1`, `p2`, `p3`
exists with no other cloud point strictly inside it; it fails (`none`, the
spec's "no point found") when no candidate qualifies.  The cylindrical
pruning of candidates is omitted (the spec states it is "a pruning step, not
the exact geometric test"), and the smallest-rotation-angle selection among
valid candidates is abstracted to first-in-cloud-order, which no claim
below depends on. -/
def find_third_point (cloud : List Pt) (r : ℚ) (faces : List FaceT) (p1 p2 : Pt) : Option Pt :=
  (cloud.filter fun p3 =>
    p3 != p1 && p3 != p2 && !faceUses faces p1 p2 p3 && validSphereB cloud r p1 p2 p3).head?

/-- Modelled from the spec: `Point.find_neighbouring_vertices_with_distance`
of the missing point.py (design section 4.1): every cloud point other than
the point itself whose distance is at most the radius, with a parallel list
of distances.  Squared distances are used; they rank candidates identically
to distances. -/
def find_neighbouring_vertices_with_distance (p : Pt) (cloud : List Pt) (r : ℚ) :
    List Pt × List ℚ :=
  let ns := cloud.filter fun q => q != p && decide (distSq q p ≤ qmul r r)
  (ns, ns.map fun q => distSq q p)

def closestGo (best : Pt) (bd : ℚ) : List (Pt × ℚ) → Pt
  | [] => best
  | (q, dq) :: rest => if dq < bd then closestGo q dq rest else closestGo best bd rest

/-- Modelled from the spec: `Point.get_closest_point` of the missing
point.py (design section 4.1): the candidate of minimal distance, ties
broken by first occurrence; on an empty candidate set the lookup fails. -/
def get_closest_point (cands : List Pt) (dists : List ℚ) : Except Err Pt :=
  match cands.zip dists with
  | [] => .error .emptyCandidates
  | (p, d) :: rest => .ok (closestGo p d rest)

/-- The engine state of one `BallPivotingAlgorithm` run: the heap of
allocated Edge objects (identity = position), the `self.edges` list of heap
ids, the `self.faces` list, the point cloud, radius and iteration budget. -/
structure EngineState where
  heap : List EdgeObj
  edges : List Nat
  faces : List FaceT
  pointCloud : List Pt
  radius : ℚ
  iterations : Nat
  deriving DecidableEq, Repr, Inhabited

/-- `Edge(a, b)`: allocates a fresh Edge object with connection count 0 and
returns its heap id. -/
def allocEdge (s : EngineState) (a b : Pt) : Nat × EngineState :=
  (s.heap.length, { s with heap := s.heap ++ [⟨a, b, 0⟩] })

/-- Increment the connection count of the edge object at heap id `i`. -/
def bump (heap : List EdgeObj) (i : Nat) : List EdgeObj :=
  match heap[i]? with
  | some e => heap.set i { e with connections := e.connections + 1 }
  | none => heap

/-- Modelled from the spec: `Face.__init__` of the missing face.py increments
the connection count of each of its three edges (design section 3: the count
is "incremented by one each time a Face is constructed that uses this
edge"). -/
def mkFace (heap : List EdgeObj) (p1 p2 p3 : Pt) (e1 e2 e3 : Nat) (i1 i2 i3 : Nat) :
    FaceT × List EdgeObj :=
  (⟨p1, p2, p3, e1, e2, e3, i1, i2, i3⟩, bump (bump (bump heap e1) e2) e3)

/-- `true` iff heap id `i` refers to an edge with connection count below 2. -/
def edgeOpen (heap : List EdgeObj) (i : Nat) : Bool :=
  match heap[i]? with
  | some e => decide (e.connections < 2)
  | none => false

/-- Modelled from the spec: `Face.get_new_edge` of the missing face.py
(design section 4.3): one of the face's three edges with connection count
below 2, preferring the two fresher edges over the edge the face was
pivoted from (`e1`); `none` when all three are saturated. -/
def get_new_edge (heap : List EdgeObj) (f : FaceT) : Option Nat :=
  if edgeOpen heap f.e2 then some f.e2
  else if edgeOpen heap f.e3 then some f.e3
  else if edgeOpen heap f.e1 then some f.e1
  else none

/-- First index of a cloud element equal to `p`, the meaning of
`np.where(self.point_cloud == point)[0][0]` under the spec's coordinatewise
Point equality; `none` models the IndexError when no element matches. -/
def npWhereFirst : List Pt → Pt → Option Nat
  | [], _ => none
  | q :: rest, p => if q == p then some 0 else (npWhereFirst rest p).map (· + 1)

def idxOf (cloud : List Pt) (p : Pt) : Except Err Nat :=
  match npWhereFirst cloud p with
  | some i => .ok i
  | none => .error .indexError

/-- Symmetric equality of Edge endpoint pairs.  Modelled from the spec:
`Edge.__eq__` of the missing edge.py compares the unordered endpoint pair
(design section 2: "equality and hashing are symmetric"). -/
def pairEqB (a1 b1 a2 b2 : Pt) : Bool :=
  (a1 == a2 && b1 == b2) || (a1 == b2 && b1 == a2)

/-- Modelled from the spec: the hash key of an Edge is its unordered
endpoint pair, represented as a two-element multiset. -/
def edgeKey (e : EdgeObj) : Multiset Pt := {e.a, e.b}

/-- Symmetric equality lifted to heap ids. -/
def pairEqIds (heap : List EdgeObj) (i j : Nat) : Bool :=
  match heap[i]?, heap[j]? with
  | some e1, some e2 => pairEqB e1.a e1.b e2.a e2.b
  | _, _ => false

/-- `list(set(self.edges))`: deduplicate the edge id list under the
symmetric Edge equality, keeping the first-inserted object of each
equivalence class (CPython set semantics keep the first equal element
added; the list order produced by the set is irrelevant to the engine, so
first-occurrence order is used). -/
def dedupKeepFirst (heap : List EdgeObj) (seen : List Nat) : List Nat → List Nat
  | [] => []
  | i :: rest =>
    if seen.any (fun j => pairEqIds heap j i) then dedupKeepFirst heap seen rest
    else i :: dedupKeepFirst heap (seen ++ [i]) rest

/-- `BallPivotingAlgorithm.find_seed_triangle` (bpa.py lines 74-102):
first point, nearest neighbour within radius, third point via the pivot
predicate, three edges appended to `self.edges`, indices via `np.where`,
and the seed Face.  Note that `get_closest_point` is invoked on whatever
candidate set the neighbour query returns, including the empty one. -/
def find_seed_triangle (s : EngineState) : Except Err (FaceT × EngineState) :=
  match s.pointCloud.head? with
  | none => .error .indexError
  | some first_point =>
    match get_closest_point
        (find_neighbouring_vertices_with_distance first_point s.pointCloud s.radius).1
        (find_neighbouring_vertices_with_distance first_point s.pointCloud s.radius).2 with
    | .error e => .error e
    | .ok second_point =>
      let a1 := allocEdge s first_point second_point
      let s1 := { a1.2 with edges := a1.2.edges ++ [a1.1] }
      match find_third_point s1.pointCloud s1.radius s1.faces first_point second_point with
      | none => .error .noPointFound
      | some third_point =>
        let a2 := allocEdge s1 second_point third_point
        let a3 := allocEdge a2.2 third_point first_point
        let s3 := { a3.2 with edges := a3.2.edges ++ [a2.1, a3.1] }
        match idxOf s3.pointCloud first_point, idxOf s3.pointCloud second_point,
              idxOf s3.pointCloud third_point with
        | .ok i1, .ok i2, .ok i3 =>
          let fm := mkFace s3.heap first_point second_point third_point a1.1 a2.1 a3.1 i1 i2 i3
          .ok (fm.1, { s3 with heap := fm.2 })
        | .error e1, _, _ => .error e1
        | _, .error e2, _ => .error e2
        | _, _, .error e3 => .error e3

/-- `BallPivotingAlgorithm.pivot_ball` (bpa.py lines 104-123): find a third
point for the given edge object, allocate two fresh Edge objects for the
new sides (regardless of whether an equal edge already exists), append
them, deduplicate `self.edges` with `list(set(...))`, and build the Face
(whose construction increments the three connection counts). -/
def pivot_ball (s : EngineState) (eid : Nat) : Except Err (FaceT × EngineState) :=
  match s.heap[eid]? with
  | none => .error .indexError
  | some e =>
    match find_third_point s.pointCloud s.radius s.faces e.a e.b with
    | none => .error .noPointFound
    | some third_point =>
      let a2 := allocEdge s e.a third_point
      let a3 := allocEdge a2.2 e.b third_point
      let s2 := { a3.2 with edges := dedupKeepFirst a3.2.heap [] (a3.2.edges ++ [a2.1, a3.1]) }
      match idxOf s2.pointCloud e.a, idxOf s2.pointCloud e.b,
            idxOf s2.pointCloud third_point with
      | .ok i1, .ok i2, .ok i3 =>
        let fm := mkFace s2.heap e.a e.b third_point eid a2.1 a3.1 i1 i2 i3
        .ok (fm.1, { s2 with heap := fm.2 })
      | .error e1, _, _ => .error e1
      | _, .error e2, _ => .error e2
      | _, _, .error e3 => .error e3

inductive ScanRes where
  | found (e : Nat)
  | quitRun
  deriving DecidableEq, Repr

/-- The fallback scan of `run` (bpa.py lines 190-196), searched when the
fresh face offers no front edge:

  k = 0
  while edge == None:
      if k > len(self.faces): self.write_to_file(); quit()
      face = self.faces[k]
      edge = face.get_new_edge()
      k += 1

The guard is `k > len(self.faces)`, so at `k = len(self.faces)` the access
`self.faces[k]` is attempted and fails with an IndexError.  The fuel
argument only bounds the recursion; `run` passes `len(faces) + 2`, which
the loop can never exhaust. -/
def scanFuel (heap : List EdgeObj) (faces : List FaceT) : Nat → Nat → Except Err ScanRes
  | 0, _ => .error .fuelExhausted
  | fuel + 1, k =>
    if k > faces.length then .ok .quitRun
    else
      match faces[k]? with
      | none => .error .indexError
      | some f =>
        match get_new_edge heap f with
        | some e => .ok (.found e)
        | none => scanFuel heap faces fuel (k + 1)

/-- What `write_to_file` (bpa.py lines 125-158) serializes: the vertex list
in original cloud order, and one line per face holding its three 1-based
point-cloud indices (`f {p1_index+1} {p2_index+1} {p3_index+1}`). -/
structure RunOutput where
  vertices : List Pt
  faceLines : List (Nat × Nat × Nat)
  faces : List FaceT
  state : EngineState
  deriving DecidableEq, Repr, Inhabited

def write_to_file (s : EngineState) : RunOutput :=
  ⟨s.pointCloud, s.faces.map (fun f => (f.i1 + 1, f.i2 + 1, f.i3 + 1)), s.faces, s⟩

/-- One iteration of the main loop of `run` (bpa.py lines 185-196): pivot
the current edge, append the face, pick the next front edge from the new
face, fall back to the scan over all faces when it has none; `rec`
continues with the remaining iterations. -/
def runLoopBody (s : EngineState) (edge? : Option Nat)
    (rec : EngineState → Option Nat → Except Err RunOutput) : Except Err RunOutput :=
  match edge? with
  | none => .error .noneTypeError
  | some eid =>
    match pivot_ball s eid with
    | .error e => .error e
    | .ok fs =>
      let s2 := { fs.2 with faces := fs.2.faces ++ [fs.1] }
      match get_new_edge s2.heap fs.1 with
      | some e => rec s2 (some e)
      | none =>
        match scanFuel s2.heap s2.faces (s2.faces.length + 2) 0 with
        | .ok (.found e) => rec s2 (some e)
        | .ok .quitRun => .ok (write_to_file s2)
        | .error err => .error err

/-- The main loop of `run` (bpa.py lines 183-198): `for i in range(self.
iterations)` around `runLoopBody`; when the budget is exhausted the mesh is
written out. -/
def runLoop : EngineState → Option Nat → Nat → Except Err RunOutput
  | s, _, 0 => .ok (write_to_file s)
  | s, edge?, n + 1 => runLoopBody s edge? (fun s' e' => runLoop s' e' n)

/-- `BallPivotingAlgorithm.run` (bpa.py lines 175-200): seed triangle,
append it, select its front edge, run the iteration-bounded loop, and
write the mesh out. -/
def run (s : EngineState) : Except Err RunOutput :=
  match find_seed_triangle s with
  | .error e => .error e
  | .ok fs =>
    let s2 := { fs.2 with faces := fs.2.faces ++ [fs.1] }
    runLoop s2 (get_new_edge s2.heap fs.1) s2.iterations

/-- A freshly constructed engine working on `cloud` with radius `r` and
iteration budget `iters`. -/
def mkEngine (cloud : List Pt) (r : ℚ) (iters : Nat) : EngineState :=
  ⟨[], [], [], cloud, r, iters⟩

/-- The value of the `point_cloud` attribute right after assignment:
`np.ndarray([])` is a 0-d (unsized) placeholder array, for which `len()`
raises a TypeError. -/
inductive PCVal where
  | unsized
  | sized (pts : List Pt)
  deriving DecidableEq, Repr

/-- Truth-value test of a numpy array of points, as performed by
`point_cloud or np.ndarray([])` (bpa.py line 30): an empty array is falsy,
a one-element array takes the truth value of its element (a Point object,
hence truthy), and an array with two or more elements raises
`ValueError: The truth value of an array with more than one element is
ambiguous`. -/
def npTruthiness : List Pt → Except Err Bool
  | [] => .ok false
  | [_] => .ok true
  | _ => .error .valueError

/-- `len()` of the stored point cloud: a TypeError on the unsized 0-d
placeholder array. -/
def lenPC : PCVal → Except Err Nat
  | .unsized => .error .typeError
  | .sized l => .ok l.length

/-- The attributes stored by a successful `__init__`. -/
structure InitResult where
  point_cloud : PCVal
  radius : ℚ
  iterations : Nat
  deriving DecidableEq, Repr

/-- `BallPivotingAlgorithm.__init__` (bpa.py lines 24-39):
`self.point_cloud = point_cloud or np.ndarray([])`, then the optional file
load replaces the cloud (`file_points` stands for the vertices parsed from
the file by `open_point_cloud`), the radius is stored without any
validation, and `self.iterations` falls back to `len(self.point_cloud)`
when the `iterations` argument is absent or 0 (falsy). -/
def bpa_init (radius : ℚ) (point_cloud : Option (List Pt)) (file_points : Option (List Pt))
    (iterations : Option Nat) : Except Err InitResult :=
  match (match point_cloud with
         | none => Except.ok PCVal.unsized
         | some a =>
           match npTruthiness a with
           | .error e => .error e
           | .ok b => .ok (if b then PCVal.sized a else PCVal.unsized)) with
  | .error e => .error e
  | .ok pc0 =>
    let pc1 := match file_points with
      | some fp => PCVal.sized fp
      | none => pc0
    match (match iterations with
           | some n => if n = 0 then lenPC pc1 else .ok n
           | none => lenPC pc1) with
    | .error e => .error e
    | .ok iters => .ok ⟨pc1, radius, iters⟩

/-- The state shared by two `BallPivotingAlgorithm` instances: `faces` and
`edges` are class attributes (bpa.py lines 21-22), so both instances
resolve them to the same class-level lists unless an instance attribute of
the same name has been created; `self.faces` is never rebound anywhere in
bpa.py, and `self.edges` is rebound only by `pivot_ball` line 119.  The
point cloud and radius are genuine per-instance attributes. -/
structure SharedState where
  heap : List EdgeObj
  classFaces : List FaceT
  classEdges : List Nat
  instEdges0 : Option (List Nat)
  instEdges1 : Option (List Nat)
  cloud0 : List Pt
  cloud1 : List Pt
  radius0 : ℚ
  radius1 : ℚ
  deriving DecidableEq, Repr

/-- The list instance `i` reads through `self.edges`: its instance
attribute when one exists, the class attribute otherwise. -/
def edgesSeenBy (i : Fin 2) (g : SharedState) : List Nat :=
  (if i = 0 then g.instEdges0 else g.instEdges1).getD g.classEdges

/-- The list any instance reads through `self.faces`: always the class
attribute, because no code path in bpa.py ever rebinds `self.faces`. -/
def facesSeenBy (_ : Fin 2) (g : SharedState) : List FaceT :=
  g.classFaces

/-- `self.faces.append(face)` executed through instance `i` (bpa.py lines
181 and 186): attribute lookup resolves to the class-level list and the
append mutates it in place. -/
def appendFaceVia (_ : Fin 2) (g : SharedState) (f : FaceT) : SharedState :=
  { g with classFaces := g.classFaces ++ [f] }

/-- The single-engine view of the shared state as seen by instance `i`. -/
def engineView (i : Fin 2) (g : SharedState) : EngineState :=
  ⟨g.heap, edgesSeenBy i g, facesSeenBy i g,
   if i = 0 then g.cloud0 else g.cloud1,
   if i = 0 then g.radius0 else g.radius1, 0⟩

/-- Write the engine-state lists back into the shared state: edge appends
went to the list `self.edges` resolved to, the instance attribute when
present and the class attribute otherwise. -/
def writeBack (i : Fin 2) (g : SharedState) (s : EngineState) : SharedState :=
  if i = 0 then
    match g.instEdges0 with
    | some _ => { g with heap := s.heap, classFaces := s.faces, instEdges0 := some s.edges }
    | none => { g with heap := s.heap, classFaces := s.faces, classEdges := s.edges }
  else
    match g.instEdges1 with
    | some _ => { g with heap := s.heap, classFaces := s.faces, instEdges1 := some s.edges }
    | none => { g with heap := s.heap, classFaces := s.faces, classEdges := s.edges }

/-- `find_seed_triangle` invoked through instance `i` of a two-instance
world: it runs on that instance's point cloud and radius but reads and
mutates the shared accumulator lists. -/
def findSeedShared (i : Fin 2) (g : SharedState) : Except Err (FaceT × SharedState) :=
  match find_seed_triangle (engineView i g) with
  | .error e => .error e
  | .ok fs => .ok (fs.1, writeBack i g fs.2)

/-- Embedding of a rational point into real 3-space. -/
def toR3 (p : Pt) : ℝ × ℝ × ℝ := ((p.x : ℝ), (p.y : ℝ), (p.z : ℝ))

/-- Squared Euclidean distance in real 3-space. -/
def distSqR (u v : ℝ × ℝ × ℝ) : ℝ :=
  (u.1 - v.1) ^ 2 + (u.2.1 - v.2.1) ^ 2 + (u.2.2 - v.2.2) ^ 2

/-- The sphere-emptiness property of an emitted face: some real sphere of
radius `r` rests on the three points (its centre is at distance `r` from
each), and no other point of the cloud lies strictly inside it. -/
def SphereEmpty (cloud : List Pt) (r : ℚ) (p1 p2 p3 : Pt) : Prop :=
  ∃ c : ℝ × ℝ × ℝ,
    distSqR c (toR3 p1) = (r : ℝ) ^ 2 ∧ distSqR c (toR3 p2) = (r : ℝ) ^ 2 ∧
    distSqR c (toR3 p3) = (r : ℝ) ^ 2 ∧
    ∀ q ∈ cloud, q ≠ p1 → q ≠ p2 → q ≠ p3 → ¬ distSqR (toR3 q) c < (r : ℝ) ^ 2

/-- Index round-trip property of one face: each stored point-cloud index
resolves, at that position of the original ordering, to exactly the
coordinates used to construct the face. -/
def GoodFace (cloud : List Pt) (f : FaceT) : Prop :=
  cloud[f.i1]? = some f.pt1 ∧ cloud[f.i2]? = some f.pt2 ∧ cloud[f.i3]? = some f.pt3

/-- Index round-trip property of a run output: the vertex list is the
original cloud in order, every face's indices resolve back to its three
points, and the serialized face lines are the three 1-based indices. -/
def GoodOutput (cloud : List Pt) (out : RunOutput) : Prop :=
  out.vertices = cloud ∧ (∀ f ∈ out.faces, GoodFace cloud f) ∧
    out.faceLines = out.faces.map (fun f => (f.i1 + 1, f.i2 + 1, f.i3 + 1))

/-- Connection bound: every Edge object of a heap has at most 2
connections. -/
def ConnBound (heap : List EdgeObj) : Prop := ∀ e ∈ heap, e.connections ≤ 2

/-- `true` iff the face has the unordered pair `{a, b}` among its three
edges' endpoint pairs. -/
def faceTouchesPair (a b : Pt) (f : FaceT) : Bool :=
  pairEqB f.pt1 f.pt2 a b || pairEqB f.pt2 f.pt3 a b || pairEqB f.pt3 f.pt1 a b

/-- The four corners of the unit square, in the ordering of the spec's
Scenario A; with radius 2 every pivot step succeeds. -/
def cloudSq : List Pt := [⟨0, 0, 0⟩, ⟨1, 0, 0⟩, ⟨1, 1, 0⟩, ⟨0, 1, 0⟩]

/-- A two-point cloud whose points are farther apart than the radius 2 used
with it: the first point has no neighbour within the radius. -/
def cloudFar : List Pt := [⟨0, 0, 0⟩, ⟨10, 0, 0⟩]

/-- A two-point cloud within radius: a second point exists but no third
point, so the seed's pivot predicate finds no point. -/
def cloudPair : List Pt := [⟨0, 0, 0⟩, ⟨1, 0, 0⟩]

/-- A heap of three fully saturated edges (connection count 2). -/
def heapSat : List EdgeObj :=
  [⟨⟨0, 0, 0⟩, ⟨1, 0, 0⟩, 2⟩, ⟨⟨1, 0, 0⟩, ⟨1, 1, 0⟩, 2⟩, ⟨⟨1, 1, 0⟩, ⟨0, 0, 0⟩, 2⟩]

/-- A single face all of whose edges are saturated: it offers no front
edge, so the fallback scan passes over it and runs off the face list. -/
def facesSat : List FaceT := [⟨⟨0, 0, 0⟩, ⟨1, 0, 0⟩, ⟨1, 1, 0⟩, 0, 1, 2, 0, 1, 2⟩]

/-- A fresh two-instance world: both instances see the empty class-level
accumulator lists; instance 0 works on the square cloud, instance 1 on an
unrelated (empty) cloud. -/
def gShared : SharedState := ⟨[], [], [], none, none, cloudSq, [], 2, 2⟩

/-- The circumcentre offset from `p1` as a function of the edge vectors
`u = p2 - p1` and `v = p3 - p1`; `circumO p1 p2 p3 = p1 + circumW u v`. -/
def circumW (u v : Pt) : Pt :=
  smulQ (qdiv 1 (qmul 2 (dotQ (crossQ u v) (crossQ u v))))
    (crossQ (psub (smulQ (dotQ u u) v) (smulQ (dotQ v v) u)) (crossQ u v))

/-- The real centre `O + t * n` of a candidate sphere, componentwise. -/
def centerR (O n : Pt) (t : ℝ) : ℝ × ℝ × ℝ :=
  ((O.x : ℝ) + t * (n.x : ℝ), (O.y : ℝ) + t * (n.y : ℝ), (O.z : ℝ) + t * (n.z : ℝ))

theorem qadd_eq (a b : ℚ) : qadd a b = a + b := by
  have ha : ((a.den : ℚ)) ≠ 0 := Nat.cast_ne_zero.mpr a.den_nz
  have hb : ((b.den : ℚ)) ≠ 0 := Nat.cast_ne_zero.mpr b.den_nz
  rw [qadd, Rat.divInt_eq_div]
  conv_rhs => rw [← Rat.num_div_den a, ← Rat.num_div_den b]
  rw [div_add_div _ _ ha hb]
  push_cast
  ring_nf

theorem qsub_eq (a b : ℚ) : qsub a b = a - b := by
  have ha : ((a.den : ℚ)) ≠ 0 := Nat.cast_ne_zero.mpr a.den_nz
  have hb : ((b.den : ℚ)) ≠ 0 := Nat.cast_ne_zero.mpr b.den_nz
  rw [qsub, Rat.divInt_eq_div]
  conv_rhs => rw [← Rat.num_div_den a, ← Rat.num_div_den b]
  rw [div_sub_div _ _ ha hb]
  push_cast
  ring_nf

theorem qmul_eq (a b : ℚ) : qmul a b = a * b := by
  rw [qmul, Rat.divInt_eq_div]
  conv_rhs => rw [← Rat.num_div_den a, ← Rat.num_div_den b]
  rw [div_mul_div_comm]
  push_cast
  ring_nf

theorem qneg_eq (a : ℚ) : qneg a = -a := by
  rw [qneg, Rat.divInt_eq_div]
  conv_rhs => rw [← Rat.num_div_den a]
  push_cast
  ring_nf

theorem qdiv_eq (a b : ℚ) : qdiv a b = a / b := by
  rcases eq_or_ne b 0 with hb | hb
  · subst hb
    show Rat.divInt (a.num * ((0 : ℚ).den : ℤ)) ((a.den : ℤ) * (0 : ℚ).num) = a / 0
    norm_num
  · have ha : ((a.den : ℚ)) ≠ 0 := Nat.cast_ne_zero.mpr a.den_nz
    have hbd : ((b.den : ℚ)) ≠ 0 := Nat.cast_ne_zero.mpr b.den_nz
    have hbn : ((b.num : ℚ)) ≠ 0 := by
      exact_mod_cast Rat.num_ne_zero.mpr hb
    rw [qdiv, Rat.divInt_eq_div]
    conv_rhs => rw [← Rat.num_div_den a, ← Rat.num_div_den b]
    push_cast
    field_simp

theorem except_ok_of_toOption {α : Type} {e : Except Err α} {a : α}
    (h : e.toOption = some a) : e = .ok a := by
  cases e with
  | ok b =>
    simp only [Except.toOption, Option.some.injEq] at h
    rw [h]
  | error err => simp [Except.toOption] at h

/-- C3 (code bug): on the square cloud, which still offers front edges
after one face, `run` with iteration cap 1 emits 2 faces (the seed plus one
pivot), not the single seed face claimed; the comment on the loop in
bpa.py ("Only run x iterations if you only want x faces") documents the
intent the code misses. -/
theorem run_cap_one_emits_two_faces :
    (run (mkEngine cloudSq 2 1)).toOption.map (fun o => o.faces.length) = some 2 := by
  decide

/-- C2 (code bug): whenever no face offers a front edge, the fallback scan
of `run` terminates with an IndexError at `self.faces[k]` for
`k = len(self.faces)` (the guard tests `k > len(self.faces)` one step too
late), instead of reaching the `write_to_file(); quit()` branch that the
claim describes; the hypotheses cover exactly the fuel and start index
`run` itself uses. -/
theorem stalled_scan_raises_index_error :
    ∀ (fuel : Nat) (heap : List EdgeObj) (faces : List FaceT) (k : Nat),
      (∀ f ∈ faces, get_new_edge heap f = none) →
      k ≤ faces.length → faces.length + 1 ≤ fuel + k →
      scanFuel heap faces fuel k = .error .indexError := by
  intro fuel
  induction fuel with
  | zero =>
    intro heap faces k hall hk hfuel
    omega
  | succ fuel ih =>
    intro heap faces k hall hk hfuel
    rw [scanFuel, if_neg (by omega)]
    rcases Nat.lt_or_eq_of_le hk with hlt | heq
    · rw [List.getElem?_eq_getElem hlt]
      show (match get_new_edge heap faces[k] with
            | some e => Except.ok (ScanRes.found e)
            | none => scanFuel heap faces fuel (k + 1)) = Except.error Err.indexError
      rw [hall _ (List.getElem_mem hlt)]
      exact ih heap faces (k + 1) hall (by omega) (by omega)
    · rw [List.getElem?_eq_none (by omega)]

theorem stalled_scan_raises_index_error_witness :
    scanFuel heapSat facesSat 3 0 = .error .indexError :=
  stalled_scan_raises_index_error 3 heapSat facesSat 0 (by decide) (by decide) (by decide)

/-- C9 (counterexample): `__init__` accepts the non-positive radius `-1`
without any error, storing it as given; no InputError exists in the
code. -/
theorem init_accepts_nonpositive_radius :
    bpa_init (qneg 1) none none (some 5) = .ok ⟨PCVal.unsized, qneg 1, 5⟩ ∧ qneg 1 < 0 := by
  exact ⟨rfl, by decide⟩

/-- C9 (amended): `__init__` performs no input validation at all: any
radius whatsoever (non-positive included) is stored unchecked, and an
empty or absent point cloud is likewise accepted (it silently becomes the
unsized placeholder array) whenever an iteration count is supplied. -/
theorem init_performs_no_validation :
    ∀ (radius : ℚ) (n : Nat),
      bpa_init radius none none (some (n + 1)) = .ok ⟨PCVal.unsized, radius, n + 1⟩ ∧
      bpa_init radius (some []) none (some (n + 1)) = .ok ⟨PCVal.unsized, radius, n + 1⟩ := by
  intro radius n
  constructor <;> simp [bpa_init, npTruthiness]

/-- C10: passing a point cloud of two or more points directly to
`__init__` raises a ValueError from the truth-value test
`point_cloud or np.ndarray([])` on a multi-element numpy array, whatever
the other arguments; a multi-point cloud can only be installed through the
file-loading path, which stores the parsed vertices untested. -/
theorem init_multi_point_cloud_value_error :
    (∀ (radius : ℚ) (p q : Pt) (rest : List Pt) (file_points : Option (List Pt))
       (iterations : Option Nat),
       bpa_init radius (some (p :: q :: rest)) file_points iterations = .error .valueError) ∧
    (∀ (radius : ℚ) (fpts : List Pt) (n : Nat),
       bpa_init radius none (some fpts) (some (n + 1)) =
         .ok ⟨PCVal.sized fpts, radius, n + 1⟩) := by
  constructor
  · intro radius p q rest fp it
    rfl
  · intro radius fpts n
    simp [bpa_init]

/-- C5 (counterexample): running `find_seed_triangle` through instance 0
changes the edge set instance 1 reads: before, instance 1 sees the empty
class-level list; afterwards it sees the three edges appended by instance
0's seed search. -/
theorem find_seed_mutates_other_instance :
    edgesSeenBy 1 gShared = [] ∧
    (findSeedShared 0 gShared).toOption.map (fun fs => edgesSeenBy 1 fs.2) = some [0, 1, 2] := by
  exact ⟨rfl, by decide⟩

/-- C5 (amended): `faces` and `edges` (bpa.py lines 21-22) are class-level
attributes, so the accumulators are shared: a face appended through any
instance is visible to every instance, because `self.faces.append` mutates
the single class-level list (`self.faces` is never rebound; `self.edges`
becomes instance-local only after `pivot_ball` rebinds it on line 119). -/
theorem faces_accumulator_shared :
    ∀ (i j : Fin 2) (g : SharedState) (f : FaceT),
      facesSeenBy j (appendFaceVia i g f) = facesSeenBy j g ++ [f] := by
  intro i j g f
  rfl

/-- C6 (counterexample): on the square cloud with 2 iterations, the third
face reuses the endpoint pair of the very first edge, yet its `e2` is the
fresh object 5, not the existing object 0: heap ids 0 and 5 hold the same
unordered pair `{(0,0,0), (1,0,0)}` while both keep connection count 1 —
a duplicate was created and the existing edge's count was not updated. -/
theorem pivot_creates_duplicate_edge_object :
    (run (mkEngine cloudSq 2 2)).toOption.map
      (fun o => (o.state.heap[0]?, o.state.heap[5]?, pairEqIds o.state.heap 0 5,
                 o.faces.map (fun f => f.e2)))
    = some (some ⟨⟨0, 0, 0⟩, ⟨1, 0, 0⟩, 1⟩, some ⟨⟨1, 0, 0⟩, ⟨0, 0, 0⟩, 1⟩, true,
            [1, 3, 5]) := by
  decide

/-- C7 (counterexample): the run constructs `Edge((0,0,0), (1,0,0))` in
`find_seed_triangle` (heap id 0) and `Edge((1,0,0), (0,0,0))` in
`pivot_ball` (heap id 5); two faces use this unordered pair, but each
object keeps its own connection count 1 — the two constructions do not
share one count. -/
theorem edge_constructions_counts_not_shared :
    (run (mkEngine cloudSq 2 2)).toOption.map
      (fun o => (o.state.heap[0]?, o.state.heap[5]?,
                 (o.faces.filter (faceTouchesPair ⟨0, 0, 0⟩ ⟨1, 0, 0⟩)).length))
    = some (some ⟨⟨0, 0, 0⟩, ⟨1, 0, 0⟩, 1⟩, some ⟨⟨1, 0, 0⟩, ⟨0, 0, 0⟩, 1⟩, 2) := by
  decide

/-- C7 (amended): Edge equality and the Edge hash key are symmetric in the
endpoints, so `Edge(A, B)` and `Edge(B, A)` compare equal and collapse to
one element inside a set; but each construction is a separate object with
its own connection count (sharing arises only from the set dedup
discarding one object, as the counterexample shows). -/
theorem edge_equality_hash_symmetric :
    ∀ (a b : Pt) (c1 c2 : Nat),
      pairEqB a b b a = true ∧ edgeKey ⟨a, b, c1⟩ = edgeKey ⟨b, a, c2⟩ := by
  intro a b c1 c2
  refine ⟨by simp [pairEqB], ?_⟩
  show ({a, b} : Multiset Pt) = ({b, a} : Multiset Pt)
  exact Multiset.cons_swap a b 0

/-- C4 (counterexample): on a cloud whose first point has no neighbour
within the radius, `find_seed_triangle` fails with the lookup error of
`get_closest_point` applied to the empty candidate set — the engine does
call the closest-point selection on an empty candidate set, and no
"no seed found" error exists. -/
theorem seed_empty_candidates_concrete :
    find_seed_triangle (mkEngine cloudFar 2 2) = .error .emptyCandidates ∧
    (find_neighbouring_vertices_with_distance ⟨0, 0, 0⟩ cloudFar 2).1 = [] := by
  exact ⟨rfl, by decide⟩

/-- C4 (amended): when the first point has no neighbour within the radius,
`find_seed_triangle` calls `get_closest_point` on the empty candidate set
and fails with its lookup error, not with a "no seed found" error; when a
neighbour exists but the first edge admits no valid third point, the
"no point found" failure of `find_third_point` propagates.  Both failures
are fatal and produce no mesh. -/
theorem seed_failure_paths :
    ∀ (s : EngineState) (p0 : Pt) (rest : List Pt),
      s.pointCloud = p0 :: rest →
      ((find_neighbouring_vertices_with_distance p0 s.pointCloud s.radius).1 = [] →
        find_seed_triangle s = .error .emptyCandidates) ∧
      (∀ second : Pt,
        get_closest_point
            (find_neighbouring_vertices_with_distance p0 s.pointCloud s.radius).1
            (find_neighbouring_vertices_with_distance p0 s.pointCloud s.radius).2 = .ok second →
        find_third_point s.pointCloud s.radius s.faces p0 second = none →
        find_seed_triangle s = .error .noPointFound) := by
  intro s p0 rest h
  obtain ⟨heap, edges, faces, cloud, radius, iters⟩ := s
  dsimp only at h ⊢
  subst h
  constructor
  · intro hne
    unfold find_seed_triangle
    simp only [List.head?_cons]
    rw [hne]
    rfl
  · intro second hgc hthird
    unfold find_seed_triangle
    simp only [List.head?_cons]
    rw [hgc]
    dsimp only [allocEdge]
    rw [hthird]

theorem seed_failure_paths_witness :
    find_seed_triangle (mkEngine cloudFar 2 2) = .error .emptyCandidates ∧
    find_seed_triangle (mkEngine cloudPair 2 2) = .error .noPointFound :=
  ⟨(seed_failure_paths (mkEngine cloudFar 2 2) ⟨0, 0, 0⟩ [⟨10, 0, 0⟩] rfl).1 (by decide),
   (seed_failure_paths (mkEngine cloudPair 2 2) ⟨0, 0, 0⟩ [⟨1, 0, 0⟩] rfl).2 ⟨1, 0, 0⟩ rfl
     (by decide)⟩

theorem npWhereFirst_spec :
    ∀ (cloud : List Pt) (p : Pt) (i : Nat),
      npWhereFirst cloud p = some i → cloud[i]? = some p := by
  intro cloud
  induction cloud with
  | nil => intro p i h; simp [npWhereFirst] at h
  | cons q rest ih =>
    intro p i h
    rw [npWhereFirst] at h
    by_cases hq : q == p
    · rw [if_pos hq] at h
      injection h with h
      subst h
      have hqp : q = p := eq_of_beq hq
      subst hqp
      simp
    · rw [if_neg hq] at h
      cases hrec : npWhereFirst rest p with
      | none => rw [hrec] at h; simp at h
      | some j =>
        rw [hrec] at h
        simp only [Option.map_some'] at h
        injection h with h
        subst h
        rw [List.getElem?_cons_succ]
        exact ih p j hrec

theorem idxOf_spec :
    ∀ (cloud : List Pt) (p : Pt) (i : Nat),
      idxOf cloud p = .ok i → cloud[i]? = some p := by
  intro cloud p i h
  unfold idxOf at h
  cases hw : npWhereFirst cloud p with
  | none => rw [hw] at h; exact absurd h (by simp)
  | some j =>
    rw [hw] at h
    injection h with h
    subst h
    exact npWhereFirst_spec cloud p j hw

theorem pivot_ball_spec :
    ∀ (s : EngineState) (eid : Nat) (fs : FaceT × EngineState),
      pivot_ball s eid = .ok fs →
      ∃ (e : EdgeObj) (third : Pt) (i1 i2 i3 : Nat),
        s.heap[eid]? = some e ∧
        find_third_point s.pointCloud s.radius s.faces e.a e.b = some third ∧
        idxOf s.pointCloud e.a = .ok i1 ∧ idxOf s.pointCloud e.b = .ok i2 ∧
        idxOf s.pointCloud third = .ok i3 ∧
        fs.1 = ⟨e.a, e.b, third, eid, s.heap.length,
                (s.heap ++ [(⟨e.a, third, 0⟩ : EdgeObj)]).length, i1, i2, i3⟩ ∧
        fs.2.pointCloud = s.pointCloud ∧ fs.2.radius = s.radius ∧
        fs.2.faces = s.faces ∧ fs.2.iterations = s.iterations ∧
        fs.2.heap = bump (bump (bump ((s.heap ++ [(⟨e.a, third, 0⟩ : EdgeObj)]) ++
            [(⟨e.b, third, 0⟩ : EdgeObj)]) eid)
            s.heap.length) ((s.heap ++ [(⟨e.a, third, 0⟩ : EdgeObj)]).length) := by
  intro s eid fs h
  unfold pivot_ball at h
  split at h
  · exact absurd h (by simp)
  next e he =>
    split at h
    · exact absurd h (by simp)
    next third hthird =>
      dsimp only [allocEdge] at h
      split at h
      next i1 i2 i3 h1 h2 h3 =>
        injection h with h
        subst h
        exact ⟨e, third, i1, i2, i3, he, hthird, h1, h2, h3, rfl, rfl, rfl, rfl, rfl, rfl⟩
      next e1 _ _ _ => exact absurd h (by simp)
      next e2 _ _ _ _ => exact absurd h (by simp)
      next e3 _ _ _ _ => exact absurd h (by simp)

theorem find_seed_triangle_spec :
    ∀ (s : EngineState) (fs : FaceT × EngineState),
      find_seed_triangle s = .ok fs →
      ∃ (p0 second third : Pt) (i1 i2 i3 : Nat),
        s.pointCloud.head? = some p0 ∧
        get_closest_point
            (find_neighbouring_vertices_with_distance p0 s.pointCloud s.radius).1
            (find_neighbouring_vertices_with_distance p0 s.pointCloud s.radius).2 = .ok second ∧
        find_third_point s.pointCloud s.radius s.faces p0 second = some third ∧
        idxOf s.pointCloud p0 = .ok i1 ∧ idxOf s.pointCloud second = .ok i2 ∧
        idxOf s.pointCloud third = .ok i3 ∧
        fs.1 = ⟨p0, second, third, s.heap.length,
                (s.heap ++ [(⟨p0, second, 0⟩ : EdgeObj)]).length,
                ((s.heap ++ [(⟨p0, second, 0⟩ : EdgeObj)]) ++
                  [(⟨second, third, 0⟩ : EdgeObj)]).length, i1, i2, i3⟩ ∧
        fs.2.pointCloud = s.pointCloud ∧ fs.2.radius = s.radius ∧
        fs.2.faces = s.faces ∧ fs.2.iterations = s.iterations ∧
        fs.2.heap = bump (bump (bump
            (((s.heap ++ [(⟨p0, second, 0⟩ : EdgeObj)]) ++ [(⟨second, third, 0⟩ : EdgeObj)]) ++
              [(⟨third, p0, 0⟩ : EdgeObj)])
            s.heap.length)
            ((s.heap ++ [(⟨p0, second, 0⟩ : EdgeObj)]).length))
            (((s.heap ++ [(⟨p0, second, 0⟩ : EdgeObj)]) ++
              [(⟨second, third, 0⟩ : EdgeObj)]).length) := by
  intro s fs h
  unfold find_seed_triangle at h
  split at h
  · exact absurd h (by simp)
  next p0 hp0 =>
    split at h
    · exact absurd h (by simp)
    next second hgc =>
      dsimp only [allocEdge] at h
      split at h
      · exact absurd h (by simp)
      next third hthird =>
        split at h
        next i1 i2 i3 h1 h2 h3 =>
          injection h with h
          subst h
          exact ⟨p0, second, third, i1, i2, i3, hp0, hgc, hthird, h1, h2, h3,
                 rfl, rfl, rfl, rfl, rfl, rfl⟩
        next => exact absurd h (by simp)
        next => exact absurd h (by simp)
        next => exact absurd h (by simp)

theorem write_to_file_good (cloud : List Pt) (s : EngineState)
    (hpc : s.pointCloud = cloud) (hgood : ∀ f ∈ s.faces, GoodFace cloud f) :
    GoodOutput cloud (write_to_file s) :=
  ⟨hpc, hgood, rfl⟩

theorem pivot_ball_good (s : EngineState) (eid : Nat) (fs : FaceT × EngineState)
    (h : pivot_ball s eid = .ok fs) : GoodFace s.pointCloud fs.1 := by
  obtain ⟨e, third, i1, i2, i3, he, ht, h1, h2, h3, hf, -⟩ := pivot_ball_spec s eid fs h
  rw [hf]
  exact ⟨idxOf_spec _ _ _ h1, idxOf_spec _ _ _ h2, idxOf_spec _ _ _ h3⟩

theorem find_seed_triangle_good (s : EngineState) (fs : FaceT × EngineState)
    (h : find_seed_triangle s = .ok fs) : GoodFace s.pointCloud fs.1 := by
  obtain ⟨p0, second, third, i1, i2, i3, hp0, hgc, ht, h1, h2, h3, hf, -⟩ :=
    find_seed_triangle_spec s fs h
  rw [hf]
  exact ⟨idxOf_spec _ _ _ h1, idxOf_spec _ _ _ h2, idxOf_spec _ _ _ h3⟩

theorem runLoop_good :
    ∀ (n : Nat) (s : EngineState) (e? : Option Nat) (cloud : List Pt) (out : RunOutput),
      s.pointCloud = cloud → (∀ f ∈ s.faces, GoodFace cloud f) →
      runLoop s e? n = .ok out → GoodOutput cloud out := by
  intro n
  induction n with
  | zero =>
    intro s e? cloud out hpc hgood h
    rw [runLoop] at h
    injection h with h
    subst h
    exact write_to_file_good cloud s hpc hgood
  | succ n ih =>
    intro s e? cloud out hpc hgood h
    have hstep : runLoop s e? (n + 1) = runLoopBody s e? (fun s' e' => runLoop s' e' n) := rfl
    rw [hstep] at h
    unfold runLoopBody at h
    split at h
    · exact absurd h (by simp)
    next eid =>
      split at h
      · exact absurd h (by simp)
      next fs hpiv =>
        obtain ⟨e, third, i1, i2, i3, he, ht, h1, h2, h3, hf, hpc2, hrad2, hfaces2, hit2, hheap2⟩ :=
          pivot_ball_spec s eid fs hpiv
        have hgf : GoodFace cloud fs.1 := hpc ▸ pivot_ball_good s eid fs hpiv
        have hpcs2 : ({ fs.2 with faces := fs.2.faces ++ [fs.1] } : EngineState).pointCloud
            = cloud := by
          show fs.2.pointCloud = cloud
          rw [hpc2, hpc]
        have hgood2 : ∀ f ∈ ({ fs.2 with faces := fs.2.faces ++ [fs.1] } : EngineState).faces,
            GoodFace cloud f := by
          intro f hfm
          have : f ∈ fs.2.faces ++ [fs.1] := hfm
          rcases List.mem_append.mp this with hold | hnew
          · exact hgood f (hfaces2 ▸ hold)
          · rcases List.mem_singleton.mp hnew with rfl
            exact hgf
        dsimp only at h
        split at h
        next e0 he0 => exact ih _ _ cloud out hpcs2 hgood2 h
        next hnone =>
          split at h
          next e1 hscan => exact ih _ _ cloud out hpcs2 hgood2 h
          next hscan =>
            injection h with h
            subst h
            exact write_to_file_good cloud _ hpcs2 hgood2
          next err hscan => exact absurd h (by simp)

/-- C8: for every completed run from a fresh engine, the vertex list of the
output is the original point cloud in order, every emitted face's three
stored indices resolve back (at those positions of the original ordering)
to exactly the three coordinates used to construct the face, and the
serialized face lines are the three 1-based positional indices into that
vertex list. -/
theorem faces_index_roundtrip :
    ∀ (cloud : List Pt) (r : ℚ) (iters : Nat) (out : RunOutput),
      run (mkEngine cloud r iters) = .ok out → GoodOutput cloud out := by
  intro cloud r iters out h
  unfold run at h
  split at h
  · exact absurd h (by simp)
  next fs hseed =>
    obtain ⟨p0, second, third, i1, i2, i3, hp0, hgc, ht, h1, h2, h3, hf, hpc2, hrad2, hfaces2,
      hit2, hheap2⟩ := find_seed_triangle_spec _ fs hseed
    have hgf : GoodFace cloud fs.1 := find_seed_triangle_good _ fs hseed
    have hpcs2 : ({ fs.2 with faces := fs.2.faces ++ [fs.1] } : EngineState).pointCloud
        = cloud := by
      show fs.2.pointCloud = cloud
      rw [hpc2]
      rfl
    have hgood2 : ∀ f ∈ ({ fs.2 with faces := fs.2.faces ++ [fs.1] } : EngineState).faces,
        GoodFace cloud f := by
      intro f hfm
      have : f ∈ fs.2.faces ++ [fs.1] := hfm
      rcases List.mem_append.mp this with hold | hnew
      · rw [hfaces2] at hold
        exact absurd hold (List.not_mem_nil f)
      · rcases List.mem_singleton.mp hnew with rfl
        exact hgf
    exact runLoop_good _ _ _ cloud out hpcs2 hgood2 h

theorem faces_index_roundtrip_witness :
    GoodOutput cloudSq ((run (mkEngine cloudSq 2 1)).toOption.getD default) :=
  faces_index_roundtrip cloudSq 2 1 _ (except_ok_of_toOption (by decide))

theorem bump_getElem?_ne (heap : List EdgeObj) (i j : Nat) (hne : i ≠ j) :
    (bump heap i)[j]? = heap[j]? := by
  unfold bump
  cases hi : heap[i]? with
  | none => rfl
  | some e => exact List.getElem?_set_ne hne

theorem connBound_bump (heap : List EdgeObj) (i : Nat) (hcb : ConnBound heap)
    (hle : ∀ e, heap[i]? = some e → e.connections ≤ 1) : ConnBound (bump heap i) := by
  intro e' hmem
  unfold bump at hmem
  cases hi : heap[i]? with
  | none => rw [hi] at hmem; exact hcb e' hmem
  | some e =>
    rw [hi] at hmem
    rcases List.mem_or_eq_of_mem_set hmem with hold | hnew
    · exact hcb e' hold
    · subst hnew
      have := hle e hi
      simp
      omega

theorem edgeOpen_some (heap : List EdgeObj) (i : Nat) (h : edgeOpen heap i = true) :
    ∃ e, heap[i]? = some e ∧ e.connections < 2 := by
  unfold edgeOpen at h
  cases hi : heap[i]? with
  | none => rw [hi] at h; simp at h
  | some e =>
    rw [hi] at h
    exact ⟨e, rfl, by simpa using h⟩

theorem get_new_edge_open (heap : List EdgeObj) (f : FaceT) (i : Nat)
    (h : get_new_edge heap f = some i) : edgeOpen heap i = true := by
  unfold get_new_edge at h
  split_ifs at h with h2 h3 h1 <;> injection h with h <;> subst h <;> assumption

theorem scan_found_open (heap : List EdgeObj) (faces : List FaceT) :
    ∀ (fuel k e : Nat), scanFuel heap faces fuel k = .ok (.found e) →
      edgeOpen heap e = true := by
  intro fuel
  induction fuel with
  | zero => intro k e h; exact absurd h (by simp [scanFuel])
  | succ fuel ih =>
    intro k e h
    rw [scanFuel] at h
    split_ifs at h with hk
    · exact absurd h (by simp)
    · split at h
      · exact absurd h (by simp)
      next f hf =>
        split at h
        next e0 hg =>
          injection h with h
          injection h with h
          subst h
          exact get_new_edge_open heap f _ hg
        next hg => exact ih (k + 1) e h

theorem pivot_ball_connBound (s : EngineState) (eid : Nat) (fs : FaceT × EngineState)
    (hcb : ConnBound s.heap) (hopen : edgeOpen s.heap eid = true)
    (h : pivot_ball s eid = .ok fs) : ConnBound fs.2.heap := by
  obtain ⟨e, third, i1, i2, i3, he, ht, h1, h2, h3, hf, hpc2, hrad2, hfaces2, hit2, hheap2⟩ :=
    pivot_ball_spec s eid fs h
  obtain ⟨e', he', hlt2⟩ := edgeOpen_some s.heap eid hopen
  rw [he] at he'
  injection he' with he'
  subst he'
  rw [hheap2]
  have hlen : eid < s.heap.length := (List.getElem?_eq_some.mp he).1
  have hcb2 : ConnBound ((s.heap ++ [⟨e.a, third, 0⟩]) ++ [⟨e.b, third, 0⟩]) := by
    intro x hx
    rcases List.mem_append.mp hx with hx | hx
    · rcases List.mem_append.mp hx with hx | hx
      · exact hcb x hx
      · rcases List.mem_singleton.mp hx with rfl
        show 0 ≤ 2
        omega
    · rcases List.mem_singleton.mp hx with rfl
      show 0 ≤ 2
      omega
  have hlen1 : (s.heap ++ [(⟨e.a, third, 0⟩ : EdgeObj)]).length = s.heap.length + 1 := by
    simp
  have l1 : ((s.heap ++ [(⟨e.a, third, 0⟩ : EdgeObj)]) ++ [(⟨e.b, third, 0⟩ : EdgeObj)])[eid]?
      = some e := by
    rw [List.getElem?_append_left (by omega), List.getElem?_append_left hlen]
    exact he
  have l2 : ((s.heap ++ [(⟨e.a, third, 0⟩ : EdgeObj)]) ++
      [(⟨e.b, third, 0⟩ : EdgeObj)])[s.heap.length]? = some ⟨e.a, third, 0⟩ := by
    rw [List.getElem?_append_left (by omega)]
    exact List.getElem?_concat_length _ _
  have l3 : ((s.heap ++ [(⟨e.a, third, 0⟩ : EdgeObj)]) ++
      [(⟨e.b, third, 0⟩ : EdgeObj)])[(s.heap ++ [(⟨e.a, third, 0⟩ : EdgeObj)]).length]?
      = some ⟨e.b, third, 0⟩ := List.getElem?_concat_length _ _
  apply connBound_bump
  · apply connBound_bump
    · apply connBound_bump _ _ hcb2
      intro x hx
      rw [l1] at hx
      injection hx with hx
      subst hx
      omega
    · intro x hx
      rw [bump_getElem?_ne _ _ _ (by omega), l2] at hx
      injection hx with hx
      subst hx
      show 0 ≤ 1
      omega
  · intro x hx
    rw [bump_getElem?_ne _ _ _ (by omega), bump_getElem?_ne _ _ _ (by omega), l3] at hx
    injection hx with hx
    subst hx
    show 0 ≤ 1
    omega

theorem find_seed_connBound (s : EngineState) (fs : FaceT × EngineState)
    (hcb : ConnBound s.heap) (h : find_seed_triangle s = .ok fs) : ConnBound fs.2.heap := by
  obtain ⟨p0, second, third, i1, i2, i3, hp0, hgc, ht, h1, h2, h3, hf, hpc2, hrad2, hfaces2,
    hit2, hheap2⟩ := find_seed_triangle_spec s fs h
  rw [hheap2]
  have hcb3 : ConnBound (((s.heap ++ [⟨p0, second, 0⟩]) ++ [⟨second, third, 0⟩]) ++
      [⟨third, p0, 0⟩]) := by
    intro x hx
    rcases List.mem_append.mp hx with hx | hx
    · rcases List.mem_append.mp hx with hx | hx
      · rcases List.mem_append.mp hx with hx | hx
        · exact hcb x hx
        · rcases List.mem_singleton.mp hx with rfl; show 0 ≤ 2; omega
      · rcases List.mem_singleton.mp hx with rfl; show 0 ≤ 2; omega
    · rcases List.mem_singleton.mp hx with rfl; show 0 ≤ 2; omega
  have hlen1 : (s.heap ++ [(⟨p0, second, 0⟩ : EdgeObj)]).length = s.heap.length + 1 := by simp
  have hlen2 : ((s.heap ++ [(⟨p0, second, 0⟩ : EdgeObj)]) ++
      [(⟨second, third, 0⟩ : EdgeObj)]).length = s.heap.length + 2 := by simp
  have l1 : (((s.heap ++ [(⟨p0, second, 0⟩ : EdgeObj)]) ++ [(⟨second, third, 0⟩ : EdgeObj)]) ++
      [(⟨third, p0, 0⟩ : EdgeObj)])[s.heap.length]? = some ⟨p0, second, 0⟩ := by
    rw [List.getElem?_append_left (by omega), List.getElem?_append_left (by omega)]
    exact List.getElem?_concat_length _ _
  have l2 : (((s.heap ++ [(⟨p0, second, 0⟩ : EdgeObj)]) ++ [(⟨second, third, 0⟩ : EdgeObj)]) ++
      [(⟨third, p0, 0⟩ : EdgeObj)])[(s.heap ++ [(⟨p0, second, 0⟩ : EdgeObj)]).length]?
      = some ⟨second, third, 0⟩ := by
    rw [List.getElem?_append_left (by omega)]
    exact List.getElem?_concat_length _ _
  have l3 : (((s.heap ++ [(⟨p0, second, 0⟩ : EdgeObj)]) ++ [(⟨second, third, 0⟩ : EdgeObj)]) ++
      [(⟨third, p0, 0⟩ : EdgeObj)])[((s.heap ++ [(⟨p0, second, 0⟩ : EdgeObj)]) ++
        [(⟨second, third, 0⟩ : EdgeObj)]).length]? = some ⟨third, p0, 0⟩ :=
    List.getElem?_concat_length _ _
  apply connBound_bump
  · apply connBound_bump
    · apply connBound_bump _ _ hcb3
      intro x hx
      rw [l1] at hx
      injection hx with hx
      subst hx
      show 0 ≤ 1
      omega
    · intro x hx
      rw [bump_getElem?_ne _ _ _ (by omega), l2] at hx
      injection hx with hx
      subst hx
      show 0 ≤ 1
      omega
  · intro x hx
    rw [bump_getElem?_ne _ _ _ (by omega), bump_getElem?_ne _ _ _ (by omega), l3] at hx
    injection hx with hx
    subst hx
    show 0 ≤ 1
    omega

theorem runLoop_connBound :
    ∀ (n : Nat) (s : EngineState) (e? : Option Nat) (out : RunOutput),
      ConnBound s.heap → (∀ i, e? = some i → edgeOpen s.heap i = true) →
      runLoop s e? n = .ok out → ConnBound out.state.heap := by
  intro n
  induction n with
  | zero =>
    intro s e? out hcb hopen h
    rw [runLoop] at h
    injection h with h
    subst h
    exact hcb
  | succ n ih =>
    intro s e? out hcb hopen h
    have hstep : runLoop s e? (n + 1) = runLoopBody s e? (fun s' e' => runLoop s' e' n) := rfl
    rw [hstep] at h
    unfold runLoopBody at h
    split at h
    · exact absurd h (by simp)
    next eid =>
      split at h
      · exact absurd h (by simp)
      next fs hpiv =>
        have hcb2 : ConnBound fs.2.heap :=
          pivot_ball_connBound s eid fs hcb (hopen eid rfl) hpiv
        dsimp only at h
        split at h
        next e0 he0 =>
          refine ih ({ fs.2 with faces := fs.2.faces ++ [fs.1] }) (some e0) out hcb2
            (fun i hi => ?_) h
          injection hi with hi
          subst hi
          exact get_new_edge_open _ _ _ he0
        next hnone =>
          split at h
          next e1 hscan =>
            refine ih ({ fs.2 with faces := fs.2.faces ++ [fs.1] }) (some e1) out hcb2
              (fun i hi => ?_) h
            injection hi with hi
            subst hi
            exact scan_found_open _ _ _ _ _ hscan
          next hscan =>
            injection h with h
            subst h
            exact hcb2
          next err hscan => exact absurd h (by simp)

/-- C6 (amended): at the end of every completed run from a fresh engine,
every Edge object in the heap has connection count at most 2; and whenever
`pivot_ball` constructs a face, its two new sides are freshly allocated
Edge objects (heap ids `len(heap)` and `len(heap)+1`), regardless of
whether an Edge with the same endpoint pair already exists — the existing
object and its count are never reused for the new face. -/
theorem connection_bound_and_fresh_alloc :
    (∀ (cloud : List Pt) (r : ℚ) (iters : Nat) (out : RunOutput),
       run (mkEngine cloud r iters) = .ok out → ConnBound out.state.heap) ∧
    (∀ (s : EngineState) (eid : Nat) (fs : FaceT × EngineState),
       pivot_ball s eid = .ok fs →
       fs.1.e2 = s.heap.length ∧ fs.1.e3 = s.heap.length + 1) := by
  constructor
  · intro cloud r iters out h
    unfold run at h
    split at h
    · exact absurd h (by simp)
    next fs hseed =>
      have hcb0 : ConnBound (mkEngine cloud r iters).heap := by
        intro e he
        exact absurd he (List.not_mem_nil e)
      have hcb2 : ConnBound fs.2.heap := find_seed_connBound _ fs hcb0 hseed
      exact runLoop_connBound ({ fs.2 with faces := fs.2.faces ++ [fs.1] } : EngineState).iterations
        ({ fs.2 with faces := fs.2.faces ++ [fs.1] })
        (get_new_edge ({ fs.2 with faces := fs.2.faces ++ [fs.1] } : EngineState).heap fs.1)
        out hcb2 (fun i hi => get_new_edge_open _ _ _ hi) h
  · intro s eid fs h
    obtain ⟨e, third, i1, i2, i3, he, ht, h1, h2, h3, hf, -⟩ := pivot_ball_spec s eid fs h
    rw [hf]
    refine ⟨rfl, ?_⟩
    show (s.heap ++ [(⟨e.a, third, 0⟩ : EdgeObj)]).length = s.heap.length + 1
    simp

theorem connection_bound_and_fresh_alloc_witness :
    ConnBound ((run (mkEngine cloudSq 2 1)).toOption.getD default).state.heap :=
  connection_bound_and_fresh_alloc.1 cloudSq 2 1 _ (except_ok_of_toOption (by decide))

theorem circumO_eq (p1 p2 p3 : Pt) :
    circumO p1 p2 p3 = padd p1 (circumW (psub p2 p1) (psub p3 p1)) := rfl

theorem circumW_dot_u (u v : Pt) (h : dotQ (crossQ u v) (crossQ u v) ≠ 0) :
    dotQ (circumW u v) u * 2 = dotQ u u := by
  simp only [circumW, dotQ, crossQ, psub, smulQ,
    qadd_eq, qsub_eq, qmul_eq, qdiv_eq, qneg_eq] at h ⊢
  field_simp
  ring

theorem circumW_dot_v (u v : Pt) (h : dotQ (crossQ u v) (crossQ u v) ≠ 0) :
    dotQ (circumW u v) v * 2 = dotQ v v := by
  simp only [circumW, dotQ, crossQ, psub, smulQ,
    qadd_eq, qsub_eq, qmul_eq, qdiv_eq, qneg_eq] at h ⊢
  field_simp
  ring

theorem distSq_comm (p q : Pt) : distSq p q = distSq q p := by
  simp only [distSq, dotQ, psub, qadd_eq, qsub_eq, qmul_eq]
  ring

theorem distSq_padd_self (p w : Pt) : distSq (padd p w) p = dotQ w w := by
  simp only [distSq, dotQ, psub, padd, qadd_eq, qsub_eq, qmul_eq]
  ring

theorem distSq_padd (p w q : Pt) :
    distSq (padd p w) q = dotQ w w - 2 * dotQ w (psub q p) + distSq q p := by
  simp only [distSq, dotQ, psub, padd, qadd_eq, qsub_eq, qmul_eq]
  ring

theorem circ2 (p1 p2 p3 : Pt) (h : nsqOf p1 p2 p3 ≠ 0) :
    distSq (circumO p1 p2 p3) p2 = R2of p1 p2 p3 := by
  have h' : dotQ (crossQ (psub p2 p1) (psub p3 p1)) (crossQ (psub p2 p1) (psub p3 p1)) ≠ 0 := h
  have hw := circumW_dot_u (psub p2 p1) (psub p3 p1) h'
  have hr : R2of p1 p2 p3 = dotQ (circumW (psub p2 p1) (psub p3 p1))
      (circumW (psub p2 p1) (psub p3 p1)) := by
    show distSq (circumO p1 p2 p3) p1 = _
    rw [circumO_eq, distSq_padd_self]
  rw [circumO_eq, distSq_padd, hr]
  have hd : distSq p2 p1 = dotQ (psub p2 p1) (psub p2 p1) := rfl
  rw [hd]
  linarith

theorem circ3 (p1 p2 p3 : Pt) (h : nsqOf p1 p2 p3 ≠ 0) :
    distSq (circumO p1 p2 p3) p3 = R2of p1 p2 p3 := by
  have h' : dotQ (crossQ (psub p2 p1) (psub p3 p1)) (crossQ (psub p2 p1) (psub p3 p1)) ≠ 0 := h
  have hw := circumW_dot_v (psub p2 p1) (psub p3 p1) h'
  have hr : R2of p1 p2 p3 = dotQ (circumW (psub p2 p1) (psub p3 p1))
      (circumW (psub p2 p1) (psub p3 p1)) := by
    show distSq (circumO p1 p2 p3) p1 = _
    rw [circumO_eq, distSq_padd_self]
  rw [circumO_eq, distSq_padd, hr]
  have hd : distSq p3 p1 = dotQ (psub p3 p1) (psub p3 p1) := rfl
  rw [hd]
  linarith

theorem plane1 (p1 p2 p3 : Pt) :
    dotQ (psub p1 (circumO p1 p2 p3)) (nvecOf p1 p2 p3) = 0 := by
  simp only [circumO, nvecOf, nsqOf, distSq, dotQ, crossQ, psub, padd, smulQ,
    qadd_eq, qsub_eq, qmul_eq, qdiv_eq, qneg_eq]
  ring

theorem plane2 (p1 p2 p3 : Pt) :
    dotQ (psub p2 (circumO p1 p2 p3)) (nvecOf p1 p2 p3) = 0 := by
  simp only [circumO, nvecOf, nsqOf, distSq, dotQ, crossQ, psub, padd, smulQ,
    qadd_eq, qsub_eq, qmul_eq, qdiv_eq, qneg_eq]
  ring

theorem plane3 (p1 p2 p3 : Pt) :
    dotQ (psub p3 (circumO p1 p2 p3)) (nvecOf p1 p2 p3) = 0 := by
  simp only [circumO, nvecOf, nsqOf, distSq, dotQ, crossQ, psub, padd, smulQ,
    qadd_eq, qsub_eq, qmul_eq, qdiv_eq, qneg_eq]
  ring

theorem sOf_mul_nsq (r : ℚ) (p1 p2 p3 : Pt) (h : nsqOf p1 p2 p3 ≠ 0) :
    sOf r p1 p2 p3 * nsqOf p1 p2 p3 = r * r - R2of p1 p2 p3 := by
  rw [sOf, qdiv_eq, qsub_eq, qmul_eq]
  field_simp

theorem distSqR_comm (a b : ℝ × ℝ × ℝ) : distSqR a b = distSqR b a := by
  simp only [distSqR]
  ring

theorem distSqR_centerR (q O n : Pt) (t : ℝ) :
    distSqR (toR3 q) (centerR O n t) =
      ((distSq q O : ℚ) : ℝ) - 2 * t * ((dotQ (psub q O) n : ℚ) : ℝ) +
        t ^ 2 * ((dotQ n n : ℚ) : ℝ) := by
  simp only [distSqR, toR3, centerR, distSq, dotQ, psub, qadd_eq, qsub_eq, qmul_eq]
  push_cast
  ring

theorem geQZero_sound (A B s : ℚ) (hs : 0 ≤ s) (h : geQZero A B s = true) :
    0 ≤ (A : ℝ) + (B : ℝ) * Real.sqrt (s : ℝ) := by
  have hsr : (0 : ℝ) ≤ (s : ℝ) := by exact_mod_cast hs
  unfold geQZero at h
  split_ifs at h with hB hA hA
  · have hAr : (0 : ℝ) ≤ (A : ℝ) := by exact_mod_cast hA
    have hBr : (0 : ℝ) ≤ (B : ℝ) := by exact_mod_cast hB
    have hsq := Real.sqrt_nonneg (s : ℝ)
    have := mul_nonneg hBr hsq
    linarith
  · have hq : qmul A A ≤ qmul (qmul B B) s := of_decide_eq_true h
    rw [qmul_eq, qmul_eq, qmul_eq] at hq
    have hqr : (A : ℝ) * A ≤ (B : ℝ) * B * s := by exact_mod_cast hq
    have hBr : (0 : ℝ) ≤ (B : ℝ) := by exact_mod_cast hB
    have hAr : (A : ℝ) < 0 := by exact_mod_cast not_le.mp hA
    have key : -(A : ℝ) ≤ (B : ℝ) * Real.sqrt (s : ℝ) := by
      have h1 : -(A : ℝ) = Real.sqrt (-(A : ℝ) * -(A : ℝ)) :=
        (Real.sqrt_mul_self (by linarith)).symm
      have h2 : -(A : ℝ) * -(A : ℝ) = (A : ℝ) * A := by ring
      rw [h1, h2]
      calc Real.sqrt ((A : ℝ) * A) ≤ Real.sqrt ((B : ℝ) * B * s) := Real.sqrt_le_sqrt hqr
        _ = Real.sqrt ((B : ℝ) * B) * Real.sqrt (s : ℝ) :=
            Real.sqrt_mul (mul_self_nonneg (B : ℝ)) _
        _ = (B : ℝ) * Real.sqrt (s : ℝ) := by rw [Real.sqrt_mul_self hBr]
    linarith
  · have hq : qmul (qmul B B) s ≤ qmul A A := of_decide_eq_true h
    rw [qmul_eq, qmul_eq, qmul_eq] at hq
    have hqr : (B : ℝ) * B * s ≤ (A : ℝ) * A := by exact_mod_cast hq
    have hBr : (B : ℝ) < 0 := by exact_mod_cast not_le.mp hB
    have hAr : (0 : ℝ) ≤ (A : ℝ) := by exact_mod_cast hA
    have hb2 : Real.sqrt ((B : ℝ) * B) = -(B : ℝ) := by
      rw [show (B : ℝ) * B = -(B : ℝ) * -(B : ℝ) by ring]
      exact Real.sqrt_mul_self (by linarith)
    have key : -(B : ℝ) * Real.sqrt (s : ℝ) ≤ (A : ℝ) := by
      have h1 : Real.sqrt ((B : ℝ) * B * s) = -(B : ℝ) * Real.sqrt (s : ℝ) := by
        rw [Real.sqrt_mul (mul_self_nonneg (B : ℝ)) (s : ℝ), hb2]
      rw [← h1]
      calc Real.sqrt ((B : ℝ) * B * s) ≤ Real.sqrt ((A : ℝ) * A) := Real.sqrt_le_sqrt hqr
        _ = (A : ℝ) := Real.sqrt_mul_self hAr
    linarith

theorem side_empty_gives (cloud : List Pt) (r : ℚ) (p1 p2 p3 : Pt) (σ : ℚ)
    (hσ : σ * σ = 1) (hn : nsqOf p1 p2 p3 ≠ 0) (hs : 0 ≤ sOf r p1 p2 p3)
    (hside : sideEmptyB cloud r p1 p2 p3 σ = true) : SphereEmpty cloud r p1 p2 p3 := by
  have hsr : (0 : ℝ) ≤ ((sOf r p1 p2 p3 : ℚ) : ℝ) := by exact_mod_cast hs
  set t : ℝ := (σ : ℝ) * Real.sqrt ((sOf r p1 p2 p3 : ℚ) : ℝ) with ht
  have hσr : (σ : ℝ) * (σ : ℝ) = 1 := by exact_mod_cast hσ
  have ht2 : t ^ 2 = ((sOf r p1 p2 p3 : ℚ) : ℝ) := by
    calc t ^ 2 = ((σ : ℝ) * (σ : ℝ)) * Real.sqrt ((sOf r p1 p2 p3 : ℚ) : ℝ) ^ 2 := by
          rw [ht]; ring
      _ = 1 * ((sOf r p1 p2 p3 : ℚ) : ℝ) := by rw [hσr, Real.sq_sqrt hsr]
      _ = ((sOf r p1 p2 p3 : ℚ) : ℝ) := by ring
  have hnn : dotQ (nvecOf p1 p2 p3) (nvecOf p1 p2 p3) = nsqOf p1 p2 p3 := rfl
  have hsn : sOf r p1 p2 p3 * nsqOf p1 p2 p3 = r * r - R2of p1 p2 p3 :=
    sOf_mul_nsq r p1 p2 p3 hn
  have hrest : ∀ p : Pt, dotQ (psub p (circumO p1 p2 p3)) (nvecOf p1 p2 p3) = 0 →
      distSq p (circumO p1 p2 p3) = R2of p1 p2 p3 →
      distSqR (centerR (circumO p1 p2 p3) (nvecOf p1 p2 p3) t) (toR3 p) = (r : ℝ) ^ 2 := by
    intro p hplane hdist
    rw [distSqR_comm, distSqR_centerR, hplane, hnn, ht2, hdist]
    have : R2of p1 p2 p3 + sOf r p1 p2 p3 * nsqOf p1 p2 p3 = r * r := by
      rw [hsn]; ring
    push_cast
    have hcast : ((R2of p1 p2 p3 : ℚ) : ℝ) + ((sOf r p1 p2 p3 : ℚ) : ℝ) *
        ((nsqOf p1 p2 p3 : ℚ) : ℝ) = ((r : ℚ) : ℝ) * ((r : ℚ) : ℝ) := by
      exact_mod_cast congrArg (fun x : ℚ => ((x : ℚ) : ℝ)) this
    nlinarith [hcast]
  refine ⟨centerR (circumO p1 p2 p3) (nvecOf p1 p2 p3) t, ?_, ?_, ?_, ?_⟩
  · exact hrest p1 (plane1 p1 p2 p3) (by rw [distSq_comm]; rfl)
  · exact hrest p2 (plane2 p1 p2 p3) (by rw [distSq_comm]; exact circ2 p1 p2 p3 hn)
  · exact hrest p3 (plane3 p1 p2 p3) (by rw [distSq_comm]; exact circ3 p1 p2 p3 hn)
  · intro q hq hq1 hq2 hq3 hlt
    have hall := List.all_eq_true.mp hside q hq
    simp only [Bool.or_eq_true, beq_iff_eq] at hall
    rcases hall with (((hh | hh) | hh) | hh)
    · exact hq1 hh
    · exact hq2 hh
    · exact hq3 hh
    · unfold notInsideB at hh
      have hge := geQZero_sound _ _ _ hs hh
      simp only [qsub_eq, qadd_eq, qmul_eq, qneg_eq] at hge
      push_cast at hge
      rw [distSqR_centerR, hnn, ht2, ht] at hlt
      generalize hD : ((distSq q (circumO p1 p2 p3) : ℚ) : ℝ) = D at hge hlt
      generalize hW : ((dotQ (psub q (circumO p1 p2 p3)) (nvecOf p1 p2 p3) : ℚ) : ℝ) = W
        at hge hlt
      generalize hS : ((sOf r p1 p2 p3 : ℚ) : ℝ) = S at hge hlt
      generalize hN : ((nsqOf p1 p2 p3 : ℚ) : ℝ) = N at hge hlt
      generalize hR : ((r : ℚ) : ℝ) = R at hge hlt
      generalize hG : ((σ : ℚ) : ℝ) = G at hge hlt
      generalize hQ : Real.sqrt S = Q at hge hlt
      have hRR : R ^ 2 = R * R := pow_two R
      linarith only [hge, hlt, hRR]

theorem find_third_point_valid (cloud : List Pt) (r : ℚ) (faces : List FaceT) (p1 p2 p3 : Pt)
    (h : find_third_point cloud r faces p1 p2 = some p3) :
    validSphereB cloud r p1 p2 p3 = true := by
  unfold find_third_point at h
  cases hl : cloud.filter (fun q =>
      q != p1 && q != p2 && !faceUses faces p1 p2 q && validSphereB cloud r p1 p2 q) with
  | nil => rw [hl] at h; simp at h
  | cons x xs =>
    rw [hl] at h
    simp only [List.head?_cons] at h
    injection h with h
    subst h
    have hx : x ∈ cloud.filter (fun q =>
        q != p1 && q != p2 && !faceUses faces p1 p2 q && validSphereB cloud r p1 p2 q) := by
      rw [hl]
      exact List.mem_cons_self x xs
    have hpred := (List.mem_filter.mp hx).2
    simp only [Bool.and_eq_true] at hpred
    exact hpred.2

theorem validSphere_gives_empty (cloud : List Pt) (r : ℚ) (p1 p2 p3 : Pt)
    (h : validSphereB cloud r p1 p2 p3 = true) : SphereEmpty cloud r p1 p2 p3 := by
  unfold validSphereB at h
  simp only [Bool.and_eq_true, Bool.or_eq_true, Bool.not_eq_true', beq_eq_false_iff_ne,
    decide_eq_true_eq] at h
  obtain ⟨⟨hn, hs⟩, hside⟩ := h
  rcases hside with h1 | h2
  · exact side_empty_gives cloud r p1 p2 p3 1 (by norm_num) hn hs h1
  · refine side_empty_gives cloud r p1 p2 p3 (qneg 1) ?_ hn hs h2
    rw [qneg_eq]
    norm_num

/-- C1: every face emitted by the engine — the seed face from
`find_seed_triangle` and every face returned by `pivot_ball` — satisfies
sphere emptiness: a real sphere of the configured radius rests on the
face's three points (its centre is at distance `r` from each of them) and
no other point of the input point cloud lies strictly inside it. -/
theorem emitted_faces_sphere_empty :
    (∀ (s : EngineState) (fs : FaceT × EngineState),
       find_seed_triangle s = .ok fs →
       SphereEmpty s.pointCloud s.radius fs.1.pt1 fs.1.pt2 fs.1.pt3) ∧
    (∀ (s : EngineState) (eid : Nat) (fs : FaceT × EngineState),
       pivot_ball s eid = .ok fs →
       SphereEmpty s.pointCloud s.radius fs.1.pt1 fs.1.pt2 fs.1.pt3) := by
  constructor
  · intro s fs h
    obtain ⟨p0, second, third, i1, i2, i3, hp0, hgc, ht, h1, h2, h3, hf, -⟩ :=
      find_seed_triangle_spec s fs h
    rw [hf]
    exact validSphere_gives_empty _ _ _ _ _ (find_third_point_valid _ _ _ _ _ _ ht)
  · intro s eid fs h
    obtain ⟨e, third, i1, i2, i3, he, ht, h1, h2, h3, hf, -⟩ := pivot_ball_spec s eid fs h
    rw [hf]
    exact validSphere_gives_empty _ _ _ _ _ (find_third_point_valid _ _ _ _ _ _ ht)

theorem emitted_faces_sphere_empty_witness :
    SphereEmpty (mkEngine cloudSq 2 0).pointCloud (mkEngine cloudSq 2 0).radius
      ((find_seed_triangle (mkEngine cloudSq 2 0)).toOption.getD default).1.pt1
      ((find_seed_triangle (mkEngine cloudSq 2 0)).toOption.getD default).1.pt2
      ((find_seed_triangle (mkEngine cloudSq 2 0)).toOption.getD default).1.pt3 :=
  emitted_faces_sphere_empty.1 _ _ (except_ok_of_toOption (by decide))
